import Mathlib

/-!
# Verification of the xv6-k210 16550A UART driver (kernel/uart.c)

Shallow embedding of the driver's transmit ring buffer, blocking enqueue
(`uart_putchar`), synchronous bypass output (`uart_putc_sync`), transmit pump
(`uart_start`), lazy transmit-interrupt enable (`uart_entxi`), non-blocking
read (`uart_getchar`) and interrupt handler (`uart_intr`).

Modelling conventions:

* Machine integers are `Nat` / `Int`; the C `% UART_TX_BUF_SIZE` reductions
  appear exactly where the source performs them.
* The hardware is an oracle: the transmit-idle bit of the line status
  register (`LSR`, bit 5) is a stream `idle : Nat → Bool` consumed one value
  per `ReadReg(LSR)` poll, threaded through a poll counter `k`; the receive
  side is a list `pending : List Nat` of raw byte values waiting in the
  receive holding register, with bit 0 of `LSR` mirroring `pending ≠ []`.
  A `ReadReg` of a byte-wide register yields the value modulo 256
  (the C access is through `volatile unsigned char *`).
* Every operation returns a transcript of events (`Ev`): hardware register
  reads and writes, stores to and loads from the `uart_tx_buf` array with the
  exact index the C code uses, lock acquire/release, `sleep` and `wakeup`.
  Loops that the C source can iterate unboundedly take fuel and return
  `none` when the fuel runs out before the function returns; the
  unconditional `for(;;) ;` panic spin returns `none` outright (the call
  never returns).
* `uart_tx_buf` is modelled as a total function `Nat → Int` so that an
  out-of-range store (the C array has 32 cells) is still a definite event
  with a definite index, visible in the transcript.
-/

namespace Uart

/-- Capacity of the transmit ring buffer (`UART_TX_BUF_SIZE` in uart.c). -/
def UART_TX_BUF_SIZE : Nat := 32

/-- Register index of RHR (read) / THR (write): offset 0. -/
def THR : Nat := 0

/-- Register index of the interrupt enable register. -/
def IER : Nat := 1

/-- Register index of the line status register. -/
def LSR : Nat := 5

/-- `IER_TX_ENABLE = 1 << 0`. -/
def IER_TX_ENABLE : Nat := 1

/-- `IER_RX_ENABLE = 1 << 1`. -/
def IER_RX_ENABLE : Nat := 2

/-- `LSR_TX_IDLE = 1 << 5`. -/
def LSR_TX_IDLE : Nat := 32

/-- `LSR_RX_READY = 1 << 0`. -/
def LSR_RX_READY : Nat := 1

/-- Observable events of a driver execution: hardware register accesses,
accesses to the `uart_tx_buf` array (with the index the C code computes),
lock operations, and the scheduler calls `sleep` / `wakeup`. -/
inductive Ev where
  | readReg (reg : Nat) (v : Nat)
  | writeReg (reg : Nat) (v : Int)
  | bufWrite (i : Nat) (v : Int)
  | bufRead (i : Nat) (v : Int)
  | acquireEv
  | releaseEv
  | sleepEv
  | wakeupEv
  deriving DecidableEq

/-- The driver's transmit-side mutable state: the `uart_tx_buf` array
(as a total function, so that out-of-range stores remain observable)
and the two cursors `uart_tx_w` and `uart_tx_r`. -/
structure TxState where
  uart_tx_buf : Nat → Int
  uart_tx_w : Nat
  uart_tx_r : Nat

/-- The state right after `uart_init`: both cursors zero, buffer contents
arbitrary (zeroed here). -/
def st0 : TxState := ⟨fun _ => 0, 0, 0⟩

/-- The bytes written to the transmit holding register, in order, extracted
from a transcript. -/
def thrWrites (evs : List Ev) : List Int :=
  evs.filterMap fun e =>
    match e with
    | Ev.writeReg 0 v => some v
    | _ => none

/-- The values written to the interrupt enable register, in order. -/
def ierWrites (evs : List Ev) : List Int :=
  evs.filterMap fun e =>
    match e with
    | Ev.writeReg 1 v => some v
    | _ => none

/-- The `uart_tx_buf` indices used by stores, in order. -/
def bufWriteIdxs (evs : List Ev) : List Nat :=
  evs.filterMap fun e =>
    match e with
    | Ev.bufWrite i _ => some i
    | _ => none

/-- One execution of the `uart_start` loop (uart.c lines 167-192), with fuel
bounding the number of loop iterations.  Each iteration: if
`uart_tx_w == uart_tx_r` return (buffer empty); read `LSR` (consuming one
oracle value at poll index `k`); if the `LSR_TX_IDLE` bit is clear return;
otherwise load `uart_tx_buf[uart_tx_r]`, advance `uart_tx_r` modulo
`UART_TX_BUF_SIZE`, write the byte to `THR`, `wakeup(&uart_tx_r)`, and loop.
Returns the transcript plus `some (state, next poll index)` on return, or
`none` with the transcript so far if the fuel is exhausted first. -/
def uart_start (idle : Nat → Bool) : Nat → TxState → Nat → List Ev × Option (TxState × Nat)
  | 0, _, _ => ([], none)
  | fuel + 1, st, k =>
    if st.uart_tx_w = st.uart_tx_r then
      ([], some (st, k))
    else
      let lsrv : Nat := if idle k then LSR_TX_IDLE else 0
      if lsrv &&& LSR_TX_IDLE = 0 then
        ([Ev.readReg LSR lsrv], some (st, k + 1))
      else
        let c := st.uart_tx_buf st.uart_tx_r
        let st1 : TxState := { st with uart_tx_r := (st.uart_tx_r + 1) % UART_TX_BUF_SIZE }
        let r := uart_start idle fuel st1 (k + 1)
        (Ev.readReg LSR lsrv :: Ev.bufRead st.uart_tx_r c :: Ev.writeReg THR c ::
          Ev.wakeupEv :: r.1, r.2)

/-- One call to `uart_putchar` (uart.c lines 115-139).  Acquires the lock;
if `panicked` is set it enters `for(;;) ;` — modelled as returning `none`
(the call never returns) with transcript `[acquire]`.  Otherwise, if
`(uart_tx_w + 1) % UART_TX_BUF_SIZE == uart_tx_r` the buffer is full and the
caller sleeps on `&uart_tx_r` (modelled as `none` after a `sleep` event: in a
single-threaded run nothing can wake it).  Otherwise it stores `c` at
`uart_tx_buf[uart_tx_w]` — note the raw, unreduced index, exactly as in the
source — increments `uart_tx_w` without any modulo (line 133; the reduction
is commented out in the source at line 132), runs `uart_start`, and releases
the lock. -/
def uart_putchar (fuel : Nat) (panicked : Bool) (idle : Nat → Bool)
    (st : TxState) (k : Nat) (c : Int) : List Ev × Option (TxState × Nat) :=
  if panicked then
    ([Ev.acquireEv], none)
  else if (st.uart_tx_w + 1) % UART_TX_BUF_SIZE = st.uart_tx_r then
    ([Ev.acquireEv, Ev.sleepEv], none)
  else
    let st1 : TxState :=
      { st with
        uart_tx_buf := fun i => if i = st.uart_tx_w then c else st.uart_tx_buf i,
        uart_tx_w := st.uart_tx_w + 1 }
    let r := uart_start idle fuel st1 k
    (Ev.acquireEv :: Ev.bufWrite st.uart_tx_w c ::
      (r.1 ++ if r.2.isSome then [Ev.releaseEv] else []), r.2)

/-- Run a list of `uart_putchar` calls in sequence, threading the state and
the oracle poll counter; stops (result `none`) as soon as one call does not
return. -/
def run_putchars (fuel : Nat) (panicked : Bool) (idle : Nat → Bool) :
    TxState → Nat → List Int → List Ev × Option (TxState × Nat)
  | st, k, [] => ([], some (st, k))
  | st, k, c :: cs =>
    match uart_putchar fuel panicked idle st k c with
    | (evs, none) => (evs, none)
    | (evs, some (st1, k1)) =>
      match run_putchars fuel panicked idle st1 k1 cs with
      | (evs2, res) => (evs ++ evs2, res)

/-- The busy-wait of `uart_putc_sync`: poll `LSR` until the transmit-idle
bit is set; the fuel bounds the number of polls (`none` if the hardware
never reports idle within the fuel). -/
def lsr_spin (idle : Nat → Bool) : Nat → Nat → List Ev × Option Nat
  | 0, _ => ([], none)
  | fuel + 1, k =>
    if idle k then ([Ev.readReg LSR LSR_TX_IDLE], some (k + 1))
    else
      let r := lsr_spin idle fuel (k + 1)
      (Ev.readReg LSR 0 :: r.1, r.2)

/-- `uart_putc_sync` (uart.c lines 145-161): `push_off()`; if `panicked` is
set, `for(;;) ;` — modelled as `none` (the call never returns) with an empty
transcript, since the spin touches neither the buffer nor any register.
Otherwise busy-wait on `LSR_TX_IDLE` and write the byte to `THR`.  Returns
the transcript and, when the call returns, the next poll index. -/
def uart_putc_sync (fuel : Nat) (panicked : Bool) (idle : Nat → Bool)
    (k : Nat) (c : Int) : List Ev × Option Nat :=
  if panicked then ([], none)
  else
    let r := lsr_spin idle fuel k
    match r.2 with
    | none => (r.1, none)
    | some k1 => (r.1 ++ [Ev.writeReg THR c], some k1)

/-- `uart_entxi` (uart.c lines 68-74): read the interrupt enable register;
if the transmit-enable bit is clear, write `IER_TX_ENABLE | IER_RX_ENABLE`.
Takes the current IER contents, returns the new contents and the
transcript. -/
def uart_entxi (ier : Nat) : Nat × List Ev :=
  if ier &&& IER_TX_ENABLE = 0 then
    (IER_TX_ENABLE ||| IER_RX_ENABLE,
      [Ev.readReg IER ier, Ev.writeReg IER ((IER_TX_ENABLE ||| IER_RX_ENABLE : Nat) : Int)])
  else
    (ier, [Ev.readReg IER ier])

/-- The register writes performed by `uart_init` (uart.c lines 76-106): set
the line control register (3) to `LCR_EIGHT_BITS` (3), write 0 to the FIFO
control register (2), and enable only the receive interrupt in `IER`. -/
def uart_init_events : List Ev :=
  [Ev.writeReg 3 3, Ev.writeReg 2 0, Ev.writeReg IER ((IER_RX_ENABLE : Nat) : Int)]

/-- `uart_getchar` (uart.c lines 196-205) composed with the receive-side
hardware: `pending` is the queue of raw byte values waiting in the receive
holding register; bit 0 of the line status register is set exactly when a
byte is waiting; reading `RHR` consumes the byte, delivering its low 8 bits
(the C access is through `volatile unsigned char *`).  Returns the C return
value (`-1` for no data), the remaining hardware queue, and the
transcript. -/
def uart_getchar (pending : List Nat) : Int × List Nat × List Ev :=
  let lsrv : Nat := if pending.isEmpty then 0 else LSR_RX_READY
  if lsrv &&& 1 ≠ 0 then
    (((pending.headD 0 % 256 : Nat) : Int), pending.tail,
      [Ev.readReg LSR lsrv, Ev.readReg 0 (pending.headD 0 % 256)])
  else
    (-1, pending, [Ev.readReg LSR lsrv])

/-- The receive loop of `uart_intr` (uart.c lines 222-227): repeatedly call
`uart_getchar`, forwarding each returned byte to `consoleintr`, until it
returns -1.  Returns the list of bytes passed to `consoleintr` (in order)
and the number of `uart_getchar` calls made.  The structural recursion on
the hardware queue mirrors that `uart_getchar` consumes exactly the head of
the queue whenever it returns a byte. -/
def uart_rx_loop : List Nat → List Int × Nat
  | [] => ([], 1)
  | b :: rest =>
    let r := uart_getchar (b :: rest)
    if r.1 = -1 then ([], 1)
    else
      let q := uart_rx_loop rest
      (r.1 :: q.1, q.2 + 1)

/-- `uart_intr` (uart.c lines 210-240).  Inputs: the first interrupt
identification register reading `iir1`, the receive queue `pending`, the
transmit-idle bit of the single line-status snapshot `txIdle`, the second
IIR reading `iir2`, plus the transmit state, idle oracle, poll index and
fuel for the pump.  Steps, as in the source: (1) if `iir1 & 0x3f == 0x0c`
(receive-timeout quirk) call `uart_getchar` once and discard its value;
(2) take one `LSR` snapshot; (3) if its RX-ready bit is set, run the receive
loop; (4) if its TX-idle bit is set, acquire the lock, run `uart_start`,
release; (5) if `iir2 & 0x07` is non-zero, read `USR` (busy quirk).
Returns (bytes forwarded to `consoleintr`, `uart_getchar` call count of the
receive loop, transmit-side transcript, transmit-side result). -/
def uart_intr (fuel : Nat) (iir1 : Nat) (pending : List Nat) (txIdle : Bool)
    (iir2 : Nat) (st : TxState) (idle : Nat → Bool) (k : Nat) :
    List Int × Nat × List Ev × Option (TxState × Nat) :=
  let p1 := if iir1 &&& 0x3f = 0x0c then (uart_getchar pending).2.1 else pending
  let lsr : Nat := (if p1.isEmpty then 0 else LSR_RX_READY) |||
    (if txIdle then LSR_TX_IDLE else 0)
  let rx := if lsr &&& LSR_RX_READY ≠ 0 then uart_rx_loop p1 else ([], 0)
  let tx :=
    if lsr &&& LSR_TX_IDLE ≠ 0 then
      let r := uart_start idle fuel st k
      (Ev.acquireEv :: r.1 ++ (if r.2.isSome then [Ev.releaseEv] else []), r.2)
    else (([] : List Ev), some (st, k))
  let quirk : List Ev := if iir2 &&& 0x07 ≠ 0 then [Ev.readReg 0x1f 0] else []
  (rx.1, rx.2, tx.1 ++ quirk, tx.2)

/-- The bytes 1..32, used as a concrete enqueue sequence. -/
def bytes32 : List Int := (List.range 32).map (fun i => (i : Int) + 1)

/-- The bytes 1..33, used as a concrete enqueue sequence. -/
def bytes33 : List Int := (List.range 33).map (fun i => (i : Int) + 1)

/-- Line-status oracle: the transmit holding register is idle for the first
32 polls and for poll 33, busy otherwise. -/
def idleA : Nat → Bool := fun k => k ≤ 31 || k == 33

/-- Line-status oracle: the transmit holding register is idle for the first
32 polls, busy afterwards. -/
def idleB : Nat → Bool := fun k => k ≤ 31

/-- A concrete reachable state with `uart_tx_w = 32` and `uart_tx_r = 0`:
the cursor values left behind by 32 `uart_putchar` calls that were each
drained immediately (see `uart_start_unbounded_loop_bug`). -/
def st32 : TxState := ⟨fun _ => 0, 32, 0⟩

/-- Concrete run for the FIFO claim: enqueue the bytes 1..32 (each call
returns, the buffer never fills, at most one byte is ever buffered), then
one more interrupt-driven `uart_start` (the TX-interrupt branch of
`uart_intr`: acquire the lock and pump) when the hardware next reports
idle. -/
def c1run : List Ev × Option (TxState × Nat) :=
  match run_putchars 5 false idleA st0 0 bytes32 with
  | (evs, none) => (evs, none)
  | (evs, some (st, k)) =>
    match uart_start idleA 5 st k with
    | (evs2, r) => (evs ++ Ev.acquireEv :: evs2, r)

/-- A system state for the reachability analysis of the ring buffer: the
driver state plus two ghost transcripts — the bytes successfully stored by
enqueues (`enq`, in order) and the bytes popped and transmitted by the pump
(`tx`, in order). -/
structure Sys where
  st : TxState
  enq : List Int
  tx : List Int

/-- The initial system state, right after `uart_init`. -/
def sys0 : Sys := ⟨st0, [], []⟩

/-- The store step of `uart_putchar` (the not-full branch): store at the
raw write cursor, increment the write cursor without modulo, record the
byte as enqueued. -/
def doStore (s : Sys) (c : Int) : Sys :=
  { st := { s.st with
      uart_tx_buf := fun i => if i = s.st.uart_tx_w then c else s.st.uart_tx_buf i,
      uart_tx_w := s.st.uart_tx_w + 1 },
    enq := s.enq ++ [c],
    tx := s.tx }

/-- One pop iteration of `uart_start`: read `uart_tx_buf[uart_tx_r]`,
advance `uart_tx_r` modulo the capacity, record the byte as transmitted. -/
def doPop (s : Sys) : Sys :=
  { st := { s.st with uart_tx_r := (s.st.uart_tx_r + 1) % UART_TX_BUF_SIZE },
    enq := s.enq,
    tx := s.tx ++ [s.st.uart_tx_buf s.st.uart_tx_r] }

/-- The buffer-full test of `uart_putchar` (uart.c line 126). -/
def isFull (s : Sys) : Prop :=
  (s.st.uart_tx_w + 1) % UART_TX_BUF_SIZE = s.st.uart_tx_r

/-- Reachable system states: starting from the initialized driver, a store
happens only when the full test fails (otherwise `uart_putchar` sleeps
without storing), and a pop only when the pump's emptiness test
`uart_tx_w == uart_tx_r` fails; the transmit-idle oracle is unconstrained,
so every interleaving of stores and pops the hardware and scheduler permit
is covered. -/
inductive Reach : Sys → Prop
  | init : Reach sys0
  | store {s : Sys} (c : Int) : Reach s → ¬ isFull s → Reach (doStore s c)
  | pop {s : Sys} : Reach s → s.st.uart_tx_w ≠ s.st.uart_tx_r → Reach (doPop s)

end Uart

namespace Uart

set_option maxRecDepth 10000

/-- Helper: `uart_start` never writes the interrupt enable register. -/
theorem ierWrites_uart_start (idle : Nat → Bool) :
    ∀ fuel st k, ierWrites (uart_start idle fuel st k).1 = [] := by
  intro fuel
  induction fuel with
  | zero => intro st k; rfl
  | succ n ih =>
    intro st k
    by_cases h : st.uart_tx_w = st.uart_tx_r
    · simp [uart_start, h, ierWrites]
    · by_cases hi : idle k
      · simpa [uart_start, h, hi, ierWrites, LSR_TX_IDLE, THR, LSR] using
          ih { st with uart_tx_r := (st.uart_tx_r + 1) % UART_TX_BUF_SIZE } (k + 1)
      · simp [uart_start, h, hi, ierWrites, LSR_TX_IDLE, LSR]

/-- Helper: `uart_putchar` (when not panicked) never writes the interrupt
enable register. -/
theorem ierWrites_uart_putchar (fuel : Nat) (idle : Nat → Bool) (st : TxState)
    (k : Nat) (c : Int) :
    ierWrites (uart_putchar fuel false idle st k c).1 = [] := by
  by_cases h : (st.uart_tx_w + 1) % UART_TX_BUF_SIZE = st.uart_tx_r
  · simp [uart_putchar, h, ierWrites]
  · have hs := ierWrites_uart_start idle fuel
      { st with
        uart_tx_buf := fun i => if i = st.uart_tx_w then c else st.uart_tx_buf i,
        uart_tx_w := st.uart_tx_w + 1 } k
    simp only [ierWrites, List.filterMap] at hs ⊢
    simp [uart_putchar, h, List.filterMap_append, hs]

/-- Helper: the receive loop forwards exactly the queued bytes, reduced
modulo 256, in order, and makes one `uart_getchar` call per byte plus the
final call that reports no data. -/
theorem uart_rx_loop_spec : ∀ l : List Nat,
    uart_rx_loop l = (l.map (fun b => ((b % 256 : Nat) : Int)), l.length + 1) := by
  intro l
  induction l with
  | nil => rfl
  | cons b rest ih =>
    have hne : ((b % 256 : Nat) : Int) ≠ -1 := by omega
    have hne2 : ¬ ((b : Int) % 256 = -1) := by omega
    simp [uart_rx_loop, uart_getchar, LSR_RX_READY, hne, hne2, ih]

/-- Helper: cursor/counter invariant of the reachable states — the write
cursor equals the number of stored bytes (it is a raw counter), the read
cursor is the number of popped bytes reduced modulo the capacity, and at
most 31 stored bytes are un-transmitted. -/
theorem reach_inv {s : Sys} (h : Reach s) :
    s.st.uart_tx_w = s.enq.length
    ∧ s.st.uart_tx_r = s.tx.length % UART_TX_BUF_SIZE
    ∧ s.enq.length ≤ s.tx.length + (UART_TX_BUF_SIZE - 1) := by
  induction h with
  | init => simp [sys0, st0]
  | store c hr hg ih =>
    obtain ⟨hw, hrr, hb⟩ := ih
    simp only [isFull, hw, hrr, UART_TX_BUF_SIZE] at hg
    simp only [doStore, List.length_append, List.length_cons, List.length_nil,
      UART_TX_BUF_SIZE] at *
    omega
  | pop hr hg ih =>
    obtain ⟨hw, hrr, hb⟩ := ih
    simp only [doPop, List.length_append, List.length_cons, List.length_nil,
      UART_TX_BUF_SIZE] at *
    omega

/-- C1.  The FIFO claim fails on the code: enqueueing the 32 distinct bytes
1..32 through `uart_putchar` — every call returning immediately, no sleep
ever taken, so the ring capacity is never exceeded — followed by one
interrupt-driven `uart_start`, writes the sequence 1..32,1 to the transmit
holding register: byte 1 is transmitted twice.  Cause: `uart_putchar`
increments `uart_tx_w` without the modulo reduction (uart.c line 133, the
reduction commented out at line 132), so after the 32nd store
`uart_tx_w = 32` while `uart_tx_r` wrapped to 0; the emptiness test
`uart_tx_w == uart_tx_r` in `uart_start` then fails on an empty buffer and
the pump re-transmits the stale cell `uart_tx_buf[0]`. -/
theorem uart_fifo_duplication_bug :
    thrWrites c1run.1 = bytes32 ++ [1]
    ∧ bytes32 ++ [1] ≠ bytes32
    ∧ Ev.sleepEv ∉ c1run.1
    ∧ c1run.2.isSome = true := by decide

/-- C2.  `uart_start` does not always terminate within buffer-size pops:
from the reachable cursor state `uart_tx_w = 32`, `uart_tx_r = 0` (produced
by 32 immediately-drained `uart_putchar` calls, first conjunct), a single
`uart_start` call with the hardware always reporting transmit-idle performs
100 pops in 100 loop iterations and still has not returned (second and
third conjuncts): `uart_tx_r` stays in `[0, 32)` and can never equal 32, so
the loop never observes the buffer as empty. -/
theorem uart_start_unbounded_loop_bug :
    ((run_putchars 5 false idleB st0 0 bytes32).2.map
      (fun p => (p.1.uart_tx_w, p.1.uart_tx_r))) = some (32, 0)
    ∧ (uart_start (fun _ => true) 100 st32 0).2.isSome = false
    ∧ (thrWrites (uart_start (fun _ => true) 100 st32 0).1).length = 100 := by decide

/-- C3.  Not every store to `uart_tx_buf` uses an index in `[0, 32)`: after
32 bytes have been enqueued and drained (`uart_tx_w = 32`), the 33rd
`uart_putchar` stores its byte at index 32 — one past the end of the
32-element C array (`uart_tx_buf[uart_tx_w]` with the raw, unreduced write
cursor, uart.c line 131), an out-of-bounds write. -/
theorem uart_tx_buf_out_of_bounds_bug :
    Ev.bufWrite 32 33 ∈ (run_putchars 5 false idleB st0 0 bytes33).1
    ∧ ¬ (32 < UART_TX_BUF_SIZE)
    ∧ (run_putchars 5 false idleB st0 0 bytes33).2.isSome = true := by decide

/-- C4.  Capacity invariant: in every reachable state at most
`UART_TX_BUF_SIZE - 1 = 31` stored bytes are un-transmitted; when exactly 31
are, the full test of `uart_putchar` is true — so the enqueue takes the
sleep branch, storing nothing (see conjunct four) — and after the pump pops
one byte the full test is false again, so a woken enqueue proceeds. -/
theorem uart_tx_capacity_invariant {s : Sys} (h : Reach s) :
    s.enq.length ≤ s.tx.length + (UART_TX_BUF_SIZE - 1)
    ∧ (s.enq.length = s.tx.length + (UART_TX_BUF_SIZE - 1) → isFull s)
    ∧ (s.enq.length = s.tx.length + (UART_TX_BUF_SIZE - 1) → ¬ isFull (doPop s))
    ∧ (isFull s → ∀ fuel idle k c,
        uart_putchar fuel false idle s.st k c = ([Ev.acquireEv, Ev.sleepEv], none)) := by
  obtain ⟨hw, hr, hb⟩ := reach_inv h
  refine ⟨hb, ?_, ?_, ?_⟩
  · intro he
    simp only [isFull, hw, hr, UART_TX_BUF_SIZE] at *
    omega
  · intro he
    simp only [isFull, doPop, hw, hr, List.length_append, List.length_cons,
      List.length_nil, UART_TX_BUF_SIZE] at *
    omega
  · intro hf fuel idle k c
    simp only [isFull] at hf
    simp [uart_putchar, hf]

/-- Witness for C4 at the initial state. -/
theorem uart_tx_capacity_invariant_witness :
    sys0.enq.length ≤ sys0.tx.length + (UART_TX_BUF_SIZE - 1)
    ∧ (sys0.enq.length = sys0.tx.length + (UART_TX_BUF_SIZE - 1) → isFull sys0)
    ∧ (sys0.enq.length = sys0.tx.length + (UART_TX_BUF_SIZE - 1) → ¬ isFull (doPop sys0))
    ∧ (isFull sys0 → ∀ fuel idle k c,
        uart_putchar fuel false idle sys0.st k c = ([Ev.acquireEv, Ev.sleepEv], none)) :=
  uart_tx_capacity_invariant Reach.init

/-- C5 counterexample.  A `uart_start` call made when the buffer is empty is
not always a no-op.  In the reachable state `st32` (`uart_tx_w = 32`,
`uart_tx_r = 0`, second conjunct) the buffer holds no un-transmitted byte
and the cursors are congruent modulo the capacity — the spec's definition of
empty (first conjunct) — yet with the hardware idle the call writes the
transmit holding register (third conjunct) and advances `uart_tx_r` (fourth
and fifth conjuncts). -/
theorem uart_start_empty_mod_not_noop :
    st32.uart_tx_w % UART_TX_BUF_SIZE = st32.uart_tx_r % UART_TX_BUF_SIZE
    ∧ ((run_putchars 5 false idleB st0 0 bytes32).2.map
      (fun p => (p.1.uart_tx_w, p.1.uart_tx_r))) = some (st32.uart_tx_w, st32.uart_tx_r)
    ∧ thrWrites (uart_start (fun _ => true) 2 st32 0).1 ≠ []
    ∧ ((uart_start (fun k => k == 0) 3 st32 0).2.map
      (fun p => p.1.uart_tx_r)) = some 1
    ∧ st32.uart_tx_r ≠ 1 := by decide

/-- C5 amended.  With the buffer-emptiness reading the code actually
implements — literal cursor equality `uart_tx_w = uart_tx_r` — the claim
holds: such a call returns at once with no events at all; and a call made
when the first line-status poll reports the transmit-idle bit clear returns
after that single register read, with no register write and the state (and
in particular both cursors) unchanged. -/
theorem uart_start_noop_cases (st : TxState) (idle : Nat → Bool) (k fuel : Nat) :
    (st.uart_tx_w = st.uart_tx_r →
      uart_start idle (fuel + 1) st k = ([], some (st, k)))
    ∧ (idle k = false → st.uart_tx_w ≠ st.uart_tx_r →
      uart_start idle (fuel + 1) st k = ([Ev.readReg LSR 0], some (st, k + 1))) := by
  constructor
  · intro h
    simp [uart_start, h]
  · intro h1 h2
    simp [uart_start, h1, h2, LSR_TX_IDLE]

/-- Witness for C5 amended: the empty case at `st0`, the
hardware-not-idle case at `st32`. -/
theorem uart_start_noop_cases_witness :
    uart_start (fun _ => false) 1 st0 0 = ([], some (st0, 0))
    ∧ uart_start (fun _ => false) 1 st32 5 = ([Ev.readReg LSR 0], some (st32, 6)) :=
  ⟨(uart_start_noop_cases st0 (fun _ => false) 0 0).1 rfl,
   (uart_start_noop_cases st32 (fun _ => false) 5 0).2 rfl (by decide)⟩

/-- C6 counterexample.  The first `uart_putchar` that stores a byte and
invokes the pump does not set the transmit-interrupt enable bit:
`uart_init` leaves `IER = IER_RX_ENABLE` with the TX-enable bit clear
(first and second conjuncts), and a first `uart_putchar` from the
initialized state — which stores its byte, pumps it out and returns (fourth
conjunct) — performs no write of the interrupt enable register at all
(third conjunct), so the bit stays clear. -/
theorem uart_putchar_no_ier_write :
    ierWrites uart_init_events = [((IER_RX_ENABLE : Nat) : Int)]
    ∧ IER_RX_ENABLE &&& IER_TX_ENABLE = 0
    ∧ ierWrites (uart_putchar 5 false (fun _ => true) st0 0 7).1 = []
    ∧ (uart_putchar 5 false (fun _ => true) st0 0 7).2.isSome = true := by decide

/-- C6 amended.  `uart_putchar` (and the pump it calls) never touches the
interrupt enable register; the lazy enabling is provided by the separate
helper `uart_entxi`, which the module's callers must invoke: when the
TX-enable bit is clear it writes `IER_TX_ENABLE | IER_RX_ENABLE`, setting
the bit, and when the bit is already set it performs no IER write. -/
theorem uart_entxi_lazy_enable (fuel : Nat) (idle : Nat → Bool) (st : TxState)
    (k : Nat) (c : Int) (ier : Nat) :
    ierWrites (uart_putchar fuel false idle st k c).1 = []
    ∧ (ier &&& IER_TX_ENABLE = 0 →
        (uart_entxi ier).1 &&& IER_TX_ENABLE = IER_TX_ENABLE
        ∧ (uart_entxi ier).2 = [Ev.readReg IER ier,
            Ev.writeReg IER ((IER_TX_ENABLE ||| IER_RX_ENABLE : Nat) : Int)])
    ∧ (ier &&& IER_TX_ENABLE ≠ 0 →
        (uart_entxi ier).1 = ier ∧ ierWrites (uart_entxi ier).2 = []) := by
  refine ⟨ierWrites_uart_putchar fuel idle st k c, ?_, ?_⟩
  · intro h
    have h2 : ier % 2 = 0 := by simpa [IER_TX_ENABLE, Nat.and_one_is_mod] using h
    simp [uart_entxi, IER_TX_ENABLE, IER_RX_ENABLE, Nat.and_one_is_mod, h2]
  · intro h
    have h2 : ¬ ier % 2 = 0 := by
      simpa [IER_TX_ENABLE, Nat.and_one_is_mod] using h
    simp [uart_entxi, IER_TX_ENABLE, IER_RX_ENABLE, Nat.and_one_is_mod, h2, ierWrites]

/-- Witness for C6 amended, at the post-`uart_init` IER value
`IER_RX_ENABLE = 2` (TX bit clear) and at `3` (TX bit set). -/
theorem uart_entxi_lazy_enable_witness :
    ierWrites (uart_putchar 1 false (fun _ => true) st0 0 7).1 = []
    ∧ ((uart_entxi 2).1 &&& IER_TX_ENABLE = IER_TX_ENABLE
        ∧ (uart_entxi 2).2 = [Ev.readReg IER 2,
            Ev.writeReg IER ((IER_TX_ENABLE ||| IER_RX_ENABLE : Nat) : Int)])
    ∧ ((uart_entxi 3).1 = 3 ∧ ierWrites (uart_entxi 3).2 = []) :=
  ⟨(uart_entxi_lazy_enable 1 (fun _ => true) st0 0 7 2).1,
   (uart_entxi_lazy_enable 1 (fun _ => true) st0 0 7 2).2.1 (by decide),
   (uart_entxi_lazy_enable 1 (fun _ => true) st0 0 7 3).2.2 (by decide)⟩

/-- C7.  Once the panicked flag is set, `uart_putchar` and `uart_putc_sync`
never return (result `none`, for every fuel: the `for(;;) ;` spin) and do
no work first: `uart_putchar` only acquires the lock — its transcript is
exactly `[acquire]`, so no store to `uart_tx_buf` and no register write —
and `uart_putc_sync`'s transcript is empty. -/
theorem uart_panic_never_returns (fuel : Nat) (idle : Nat → Bool)
    (st : TxState) (k : Nat) (c : Int) :
    uart_putchar fuel true idle st k c = ([Ev.acquireEv], none)
    ∧ uart_putc_sync fuel true idle k c = ([], none) := by
  constructor <;> simp [uart_putchar, uart_putc_sync]

/-- C8.  `uart_getchar` with a byte waiting returns that byte (read from the
receive holding register as an unsigned char, consuming it from the
hardware queue) after reading `LSR` and `RHR`; with nothing waiting it
returns -1 immediately after the single `LSR` read.  Its transcript never
contains a lock acquire or a sleep, and has at most two events: it never
blocks and never takes the buffer lock. -/
theorem uart_getchar_spec :
    (∀ b rest, uart_getchar (b :: rest)
        = (((b % 256 : Nat) : Int), rest,
            [Ev.readReg LSR LSR_RX_READY, Ev.readReg 0 (b % 256)]))
    ∧ uart_getchar [] = (-1, [], [Ev.readReg LSR 0])
    ∧ (∀ pending, Ev.acquireEv ∉ (uart_getchar pending).2.2
        ∧ Ev.sleepEv ∉ (uart_getchar pending).2.2
        ∧ (uart_getchar pending).2.2.length ≤ 2) := by
  refine ⟨?_, by decide, ?_⟩
  · intro b rest
    simp [uart_getchar, LSR_RX_READY]
  · intro pending
    cases pending <;> simp [uart_getchar, LSR_RX_READY]

/-- Witness for C8 at the one-byte queue `[65]` and at the empty queue. -/
theorem uart_getchar_spec_witness :
    uart_getchar [65] = ((65 : Int), [], [Ev.readReg LSR LSR_RX_READY, Ev.readReg 0 65])
    ∧ uart_getchar [] = (-1, [], [Ev.readReg LSR 0])
    ∧ (Ev.acquireEv ∉ (uart_getchar [65]).2.2
        ∧ Ev.sleepEv ∉ (uart_getchar [65]).2.2
        ∧ (uart_getchar [65]).2.2.length ≤ 2) :=
  ⟨uart_getchar_spec.1 65 [], uart_getchar_spec.2.1, uart_getchar_spec.2.2 [65]⟩

/-- C9 counterexample.  The interrupt handler does not forward every
received byte: when the first interrupt-identification read reports the
receive-timeout quirk (`iir & 0x3f == 0x0c`), the quirk pre-read consumes a
byte and discards it — with one byte 65 pending, nothing is forwarded to
`consoleintr` (first conjunct), whereas the same queue without the quirk is
forwarded intact (third conjunct). -/
theorem uart_intr_quirk_drops_byte :
    (uart_intr 1 0x0c [65] false 0 st0 (fun _ => false) 0).1 = []
    ∧ ([65] : List Nat) ≠ []
    ∧ (uart_intr 1 0 [65] false 0 st0 (fun _ => false) 0).1 = [65] := by decide

/-- C9 amended.  `uart_intr` forwards to `consoleintr`, exactly once and in
order, every pending byte except the one the receive-timeout quirk pre-read
consumes (none unless the first IIR read masked by 0x3f equals 0x0c), and
its receive loop stops reading as soon as no data remains: it makes one
`uart_getchar` call per forwarded byte plus the final one reporting no
data, and no call at all when the line status shows no data ready. -/
theorem uart_intr_rx_passthrough (fuel iir1 iir2 : Nat) (pending : List Nat)
    (txIdle : Bool) (st : TxState) (idle : Nat → Bool) (k : Nat) :
    (uart_intr fuel iir1 pending txIdle iir2 st idle k).1
      = (if iir1 &&& 0x3f = 0x0c then pending.tail else pending).map
          (fun b => ((b % 256 : Nat) : Int))
    ∧ (uart_intr fuel iir1 pending txIdle iir2 st idle k).2.1
      = (if (if iir1 &&& 0x3f = 0x0c then pending.tail else pending).isEmpty
          then 0
          else (if iir1 &&& 0x3f = 0x0c then pending.tail else pending).length + 1) := by
  have htail : ∀ p : List Nat, (uart_getchar p).2.1 = p.tail := by
    intro p; cases p <;> simp [uart_getchar, LSR_RX_READY]
  by_cases hq : iir1 &&& 0x3f = 0x0c <;>
    · set p1 := if iir1 &&& 0x3f = 0x0c then pending.tail else pending with hp1
      cases hp : p1 with
      | nil =>
        simp only [hq, if_true, if_false, hp1] at hp
        cases txIdle <;>
          simp [uart_intr, hq, htail, hp, uart_rx_loop_spec, LSR_RX_READY, LSR_TX_IDLE]
      | cons b rest =>
        simp only [hq, if_true, if_false, hp1] at hp
        cases txIdle <;>
          simp [uart_intr, hq, htail, hp, uart_rx_loop_spec, LSR_RX_READY, LSR_TX_IDLE]

/-- C10.  `uart_getchar` returns either the no-data sentinel -1 or a value
in the byte range `[0, 255]` (the register byte passes through an
unsigned-char read), so the sentinel can never collide with a genuinely
received byte. -/
theorem uart_getchar_range (pending : List Nat) :
    (uart_getchar pending).1 = -1
    ∨ (0 ≤ (uart_getchar pending).1 ∧ (uart_getchar pending).1 ≤ 255) := by
  cases pending with
  | nil => left; rfl
  | cons b rest =>
    right
    simp only [uart_getchar, LSR_RX_READY]
    constructor <;> simp <;> omega

end Uart
